import Mathlib

/-!
Verification of the runtime execution environment of the shift virtual
machine (`core/vm/runtime/env.go`).

The file embeds the `Env` adapter of `env.go` directly.  The collaborators it
delegates to (`core.Call`, `core.CallCode`, `core.DelegateCall`,
`core.Create`, `core.Transfer`, `state.StateDB`) are not part of the sources
under verification; they are modelled from the specification of the call
orchestrator and of the database adapter, as noted on each such definition.
Addresses, hashes, storage keys/values and log entries are abstracted as
natural numbers; balances and block facts are non-negative unbounded
integers, matching the `big.Int` usage of the code, which never produces a
negative value on these quantities.  Interpreter output bytes are abstracted
away: only the success/revert/out-of-nrg signal and the state effects matter
to the orchestration layer.
-/

abbrev Addr := Nat

abbrev Hash := Nat

/-- Modelled from the spec: the bytecode interpreter is an external
collaborator, so contract code is abstracted as a small program that can
terminate successfully (optionally returning deploy code, for `Create`),
revert explicitly, exhaust its nrg, write storage, append a log entry, or
re-enter the orchestrator with a nested call. -/
inductive Prog where
  | stop : Prog
  | ret : Prog → Prog
  | revert : Prog
  | oog : Prog
  | sstore : Nat → Nat → Prog → Prog
  | log : Nat → Prog → Prog
  | call : Addr → Nat → Prog → Prog
deriving DecidableEq

/-- Account record: balance, nonce, code and storage (spec §3). -/
structure Account where
  balance : Nat
  nonce : Nat
  code : Prog
  storage : List (Nat × Nat)
deriving DecidableEq

/-- The state of an address that is not present in the database: zero
balance, zero nonce, no code, empty storage. -/
def emptyAccount : Account := ⟨0, 0, Prog.stop, []⟩

/-- Modelled from the spec: the database adapter (`state.StateDB`, not under
the verified sources) holds the account map and the accumulated log
sequence — `Env.AddLog` in `env.go` writes into the state database, which is
why logs share the snapshot boundary. -/
structure StateDB where
  accounts : List (Addr × Account)
  logs : List Nat
deriving DecidableEq

/-- Look up an account by address, defaulting to the empty account. -/
def findAcct : List (Addr × Account) → Addr → Account
  | [], _ => emptyAccount
  | (b, acct) :: rest, a => if a = b then acct else findAcct rest a

/-- Update the account stored at an address (creating it from the empty
account if absent). -/
def updAcct (f : Account → Account) : List (Addr × Account) → Addr → List (Addr × Account)
  | [], a => [(a, f emptyAccount)]
  | (b, acct) :: rest, a =>
      if a = b then (b, f acct) :: rest else (b, acct) :: updAcct f rest a

/-- Look up a storage slot, defaulting to zero. -/
def findKV : List (Nat × Nat) → Nat → Nat
  | [], _ => 0
  | (j, v) :: rest, k => if k = j then v else findKV rest k

/-- Write a storage slot. -/
def updKV : List (Nat × Nat) → Nat → Nat → List (Nat × Nat)
  | [], k, v => [(k, v)]
  | (j, w) :: rest, k, v => if k = j then (k, v) :: rest else (j, w) :: updKV rest k v

def StateDB.getBalance (st : StateDB) (a : Addr) : Nat :=
  (findAcct st.accounts a).balance

def StateDB.setBalance (st : StateDB) (a : Addr) (v : Nat) : StateDB :=
  { st with accounts := updAcct (fun acct => { acct with balance := v }) st.accounts a }

def StateDB.getNonce (st : StateDB) (a : Addr) : Nat :=
  (findAcct st.accounts a).nonce

def StateDB.setNonce (st : StateDB) (a : Addr) (n : Nat) : StateDB :=
  { st with accounts := updAcct (fun acct => { acct with nonce := n }) st.accounts a }

def StateDB.getCode (st : StateDB) (a : Addr) : Prog :=
  (findAcct st.accounts a).code

def StateDB.setCode (st : StateDB) (a : Addr) (c : Prog) : StateDB :=
  { st with accounts := updAcct (fun acct => { acct with code := c }) st.accounts a }

def StateDB.getStorage (st : StateDB) (a : Addr) (k : Nat) : Nat :=
  findKV (findAcct st.accounts a).storage k

def StateDB.setStorage (st : StateDB) (a : Addr) (k v : Nat) : StateDB :=
  { st with accounts :=
      updAcct (fun acct => { acct with storage := updKV acct.storage k v }) st.accounts a }

def StateDB.addLog (st : StateDB) (l : Nat) : StateDB :=
  { st with logs := st.logs ++ [l] }

/-- Modelled from the spec: `core.Transfer` (not under the verified sources)
debits `amount` from the sender's balance and credits it to the
recipient's. -/
def transfer (st : StateDB) (sender recipient : Addr) (amount : Nat) : StateDB :=
  let st1 := st.setBalance sender (st.getBalance sender - amount)
  st1.setBalance recipient (st1.getBalance recipient + amount)

/-- Sum of the balances of all accounts in the database. -/
def balanceSum (st : StateDB) : Nat :=
  (st.accounts.map (fun p => p.2.balance)).sum

/-- Result signal of one interpreter run: success (with optional returned
deploy code), explicit revert, or nrg exhaustion. -/
inductive XRes where
  | ok : Option Prog → XRes
  | reverted : XRes
  | oog : XRes
deriving DecidableEq

/-- Error taxonomy of the call orchestrator (spec §4.2). -/
inductive CallError where
  | depthExceeded : CallError
  | insufficientBalance : CallError
  | executionReverted : CallError
  | outOfNrg : CallError
  | addressCollision : CallError
deriving DecidableEq

mutual

/-- Modelled from the spec (§4.2 `Call`, `core.Call` is not under the
verified sources): fail with `depthExceeded` when the depth is at the 1024
bound, fail with `insufficientBalance` when the caller's balance is below
the value, otherwise snapshot the database, transfer the value, run the
callee's code at incremented depth, and on interpreter failure (revert or
nrg exhaustion) restore the snapshot. -/
def coreCall (depth : Nat) (st : StateDB) (caller callee : Addr) (value : Nat) :
    StateDB × Option CallError :=
  if h : 1024 ≤ depth then (st, some CallError.depthExceeded)
  else if st.getBalance caller < value then (st, some CallError.insufficientBalance)
  else
    let snap := st
    let st1 := transfer st caller callee value
    let r := exec (depth + 1) st1 callee (st1.getCode callee)
    match r.2 with
    | XRes.ok _ => (r.1, none)
    | XRes.reverted => (snap, some CallError.executionReverted)
    | XRes.oog => (snap, some CallError.outOfNrg)
termination_by ((1024 - depth : Nat), 0)

/-- Modelled from the spec: one interpreter run over the abstract program,
threading the database; a nested call re-enters the orchestrator at the
current (already incremented) depth, and a failed nested call degrades to a
normal return for the invoking contract. -/
def exec (depth : Nat) (st : StateDB) (self : Addr) : Prog → StateDB × XRes
  | Prog.stop => (st, XRes.ok none)
  | Prog.ret d => (st, XRes.ok (some d))
  | Prog.revert => (st, XRes.reverted)
  | Prog.oog => (st, XRes.oog)
  | Prog.sstore k v rest => exec depth (st.setStorage self k v) self rest
  | Prog.log l rest => exec depth (st.addLog l) self rest
  | Prog.call callee value rest => exec depth (coreCall depth st self callee value).1 self rest
termination_by p => ((1024 - depth : Nat), sizeOf p + 1)

end

/-- Modelled from the spec (§4.2 `CallCode`, `core.CallCode` is not under
the verified sources): like `coreCall` but the code at `codeAddr` executes
in the storage context of the caller's own account, while the value still
moves from the caller to `codeAddr`. -/
def coreCallCode (depth : Nat) (st : StateDB) (caller codeAddr : Addr) (value : Nat) :
    StateDB × Option CallError :=
  if 1024 ≤ depth then (st, some CallError.depthExceeded)
  else if st.getBalance caller < value then (st, some CallError.insufficientBalance)
  else
    let snap := st
    let st1 := transfer st caller codeAddr value
    let r := exec (depth + 1) st1 caller (st1.getCode codeAddr)
    match r.2 with
    | XRes.ok _ => (r.1, none)
    | XRes.reverted => (snap, some CallError.executionReverted)
    | XRes.oog => (snap, some CallError.outOfNrg)

/-- Modelled from the spec (§4.2 `DelegateCall`, `core.DelegateCall` is not
under the verified sources): like `coreCallCode` but no value is
transferred. -/
def coreDelegateCall (depth : Nat) (st : StateDB) (caller codeAddr : Addr) :
    StateDB × Option CallError :=
  if 1024 ≤ depth then (st, some CallError.depthExceeded)
  else
    let snap := st
    let r := exec (depth + 1) st caller (st.getCode codeAddr)
    match r.2 with
    | XRes.ok _ => (r.1, none)
    | XRes.reverted => (snap, some CallError.executionReverted)
    | XRes.oog => (snap, some CallError.outOfNrg)

/-- Modelled from the spec: the deterministic address derivation is an
external pure function of the caller's address and current nonce; any
injective pure pairing serves the model. -/
def createAddress (caller : Addr) (nonce : Nat) : Addr :=
  Nat.pair caller nonce + 1

/-- Modelled from the spec (§4.2 `Create`, `core.Create` is not under the
verified sources): depth and balance checks as in `Call`, derive the new
address, fail fatally on a code collision, increment the caller's nonce
before the snapshot, transfer the value, run the init code, and on success
install the returned deploy code; on failure restore the snapshot (the
nonce increment, taken before the snapshot, survives). -/
def coreCreate (depth : Nat) (st : StateDB) (caller : Addr) (init : Prog) (value : Nat) :
    StateDB × Addr × Option CallError :=
  if 1024 ≤ depth then (st, 0, some CallError.depthExceeded)
  else if st.getBalance caller < value then (st, 0, some CallError.insufficientBalance)
  else
    let newAddr := createAddress caller (st.getNonce caller)
    if st.getCode newAddr ≠ Prog.stop then (st, newAddr, some CallError.addressCollision)
    else
      let st0 := st.setNonce caller (st.getNonce caller + 1)
      let snap := st0
      let st1 := transfer st0 caller newAddr value
      let r := exec (depth + 1) st1 newAddr init
      match r.2 with
      | XRes.ok ret => (r.1.setCode newAddr (ret.getD Prog.stop), newAddr, none)
      | XRes.reverted => (snap, newAddr, some CallError.executionReverted)
      | XRes.oog => (snap, newAddr, some CallError.outOfNrg)

/-- Configuration consumed by `NewEnv` (the `Config` type lives outside the
verified sources; its fields are those `NewEnv` reads). -/
structure Config where
  origin : Addr
  coinbase : Addr
  blockNumber : Nat
  time : Nat
  difficulty : Nat
  nrgLimit : Nat

/-- The runtime environment of `env.go`: call depth, state database, block
and transaction facts, the VM struct-log trace, and the historical
block-hash function.  `getHashFn` is an optional function: `none` embeds
Go's nil function value. -/
structure Env where
  depth : Nat
  state : StateDB
  origin : Addr
  shiftbase : Addr
  number : Nat
  time : Nat
  difficulty : Nat
  nrgLimit : Nat
  logs : List Nat
  getHashFn : Option (Nat → Hash)

/-- `NewEnv` of `env.go`: the composite literal sets state, origin,
shiftbase, number, time, difficulty and nrgLimit; the omitted fields take
Go's zero values — depth `0`, an empty struct-log slice, and a nil
`getHashFn`. -/
def NewEnv (cfg : Config) (state : StateDB) : Env :=
  { state := state
    origin := cfg.origin
    shiftbase := cfg.coinbase
    number := cfg.blockNumber
    time := cfg.time
    difficulty := cfg.difficulty
    nrgLimit := cfg.nrgLimit
    depth := 0
    logs := []
    getHashFn := none }

def Env.StructLogs (e : Env) : List Nat := e.logs

def Env.AddStructLog (e : Env) (l : Nat) : Env := { e with logs := e.logs ++ [l] }

def Env.Origin (e : Env) : Addr := e.origin

def Env.BlockNumber (e : Env) : Nat := e.number

def Env.Coinbase (e : Env) : Addr := e.shiftbase

def Env.Time (e : Env) : Nat := e.time

def Env.Difficulty (e : Env) : Nat := e.difficulty

def Env.NrgLimit (e : Env) : Nat := e.nrgLimit

/-- `Env.GetHash` invokes `getHashFn`; when that field is Go's nil function
(`none` here) the invocation is a runtime panic, embedded as `none`. -/
def Env.GetHash (e : Env) (n : Nat) : Option Hash :=
  match e.getHashFn with
  | some f => some (f n)
  | none => none

/-- `Env.AddLog` delegates to the state database's `AddLog`. -/
def Env.AddLog (e : Env) (l : Nat) : Env := { e with state := e.state.addLog l }

def Env.Depth (e : Env) : Nat := e.depth

def Env.SetDepth (e : Env) (i : Nat) : Env := { e with depth := i }

/-- `Env.CanTransfer`: `state.GetBalance(from).Cmp(balance) >= 0`. -/
def Env.CanTransfer (e : Env) (sender : Addr) (balance : Nat) : Bool :=
  decide (balance ≤ e.state.getBalance sender)

/-- `Env.MakeSnapshot` returns `state.Copy()`.  Modelled from the spec: the
copy is a full restorable view of the account/storage state, which in the
value semantics of the embedding is the state value itself. -/
def Env.MakeSnapshot (e : Env) : StateDB := e.state

/-- `Env.SetSnapshot` replaces the state database's contents with the given
copy (`state.Set`).  Modelled from the spec: restoring must make subsequent
reads indistinguishable from the state at the snapshot. -/
def Env.SetSnapshot (e : Env) (copy : StateDB) : Env := { e with state := copy }

/-- `Env.Transfer` delegates to `core.Transfer`. -/
def Env.Transfer (e : Env) (sender recipient : Addr) (amount : Nat) : Env :=
  { e with state := transfer e.state sender recipient amount }

/-- `Env.Call` delegates to `core.Call`; `data`, `nrg` and `price` are
consumed by the interpreter collaborator, not by the orchestration
modelled here. -/
def Env.Call (e : Env) (caller callee : Addr) (data : List Nat) (nrg price value : Nat) :
    Env × Option CallError :=
  let r := coreCall e.depth e.state caller callee value
  ({ e with state := r.1 }, r.2)

/-- `Env.CallCode` delegates to `core.CallCode`. -/
def Env.CallCode (e : Env) (caller codeAddr : Addr) (data : List Nat)
    (nrg price value : Nat) : Env × Option CallError :=
  let r := coreCallCode e.depth e.state caller codeAddr value
  ({ e with state := r.1 }, r.2)

/-- `Env.DelegateCall` delegates to `core.DelegateCall`. -/
def Env.DelegateCall (e : Env) (me codeAddr : Addr) (data : List Nat)
    (nrg price : Nat) : Env × Option CallError :=
  let r := coreDelegateCall e.depth e.state me codeAddr
  ({ e with state := r.1 }, r.2)

/-- `Env.Create` delegates to `core.Create`; the init code is the abstract
interpreter program. -/
def Env.Create (e : Env) (caller : Addr) (init : Prog) (nrg price value : Nat) :
    Env × Addr × Option CallError :=
  let r := coreCreate e.depth e.state caller init value
  ({ e with state := r.1 }, r.2.1, r.2.2)

/-- Modelled from the spec: the external chain-data collaborator supplies
the historical block-hash function; it returns the recorded hash of an
ancestor-reachable height and the zero sentinel hash otherwise. -/
def chainHashFn (ancestors : List (Nat × Hash)) (n : Nat) : Hash :=
  match ancestors.lookup n with
  | some h => h
  | none => 0

/-- One database write, as exposed by the adapter interface (spec §6). -/
inductive DbWrite where
  | setBalance : Addr → Nat → DbWrite
  | setNonce : Addr → Nat → DbWrite
  | setCode : Addr → Prog → DbWrite
  | setStorage : Addr → Nat → Nat → DbWrite
  | addLog : Nat → DbWrite

/-- Apply one database write through the environment. -/
def applyWrite (e : Env) : DbWrite → Env
  | DbWrite.setBalance a v => { e with state := e.state.setBalance a v }
  | DbWrite.setNonce a n => { e with state := e.state.setNonce a n }
  | DbWrite.setCode a c => { e with state := e.state.setCode a c }
  | DbWrite.setStorage a k v => { e with state := e.state.setStorage a k v }
  | DbWrite.addLog l => { e with state := e.state.addLog l }

/-- Apply a finite sequence of database writes. -/
def applyWrites (e : Env) (ws : List DbWrite) : Env := ws.foldl applyWrite e

/-- The interpreter run performed inside a `coreCall` after the value
transfer: the callee's code, in the callee's context, at incremented
depth. -/
def callBody (depth : Nat) (st : StateDB) (caller callee : Addr) (value : Nat) :
    StateDB × XRes :=
  exec (depth + 1) (transfer st caller callee value) callee
    ((transfer st caller callee value).getCode callee)

/-- A concrete configuration used by concrete instances. -/
def cfg0 : Config := ⟨3, 4, 5, 6, 7, 8⟩

/-- A database with one funded account holding empty code. -/
def stA : StateDB := ⟨[(1, ⟨100, 0, Prog.stop, []⟩)], []⟩

/-- A database where account 2's code appends a log entry and then
reverts. -/
def stRev : StateDB :=
  ⟨[(1, ⟨100, 0, Prog.stop, []⟩), (2, ⟨0, 0, Prog.log 7 Prog.revert, []⟩)], []⟩

/-- A database where account 1's code calls account 1 — a contract calling
itself recursively. -/
def stRec : StateDB := ⟨[(1, ⟨0, 0, Prog.call 1 0 Prog.stop, []⟩)], []⟩

/-- A database matching the spec scenario: caller balance 100. -/
def stPoor : StateDB := ⟨[(1, ⟨100, 0, Prog.stop, []⟩)], []⟩

/-- A concrete ancestor table: only height 5 is reachable, with hash 77. -/
def anc0 : List (Nat × Hash) := [(5, 77)]

/-- Exhaustive case analysis of one `coreCall`: depth failure, balance
failure, or a run of the callee's code whose outcome is kept on success and
rolled back to the entry state on revert or nrg exhaustion. -/
theorem coreCall_cases (depth : Nat) (st : StateDB) (caller callee : Addr) (value : Nat) :
    (1024 ≤ depth ∧ coreCall depth st caller callee value = (st, some CallError.depthExceeded)) ∨
    (depth < 1024 ∧ st.getBalance caller < value ∧
      coreCall depth st caller callee value = (st, some CallError.insufficientBalance)) ∨
    (depth < 1024 ∧ value ≤ st.getBalance caller ∧
      ((∃ ret, (callBody depth st caller callee value).2 = XRes.ok ret ∧
         coreCall depth st caller callee value = ((callBody depth st caller callee value).1, none)) ∨
       ((callBody depth st caller callee value).2 = XRes.reverted ∧
         coreCall depth st caller callee value = (st, some CallError.executionReverted)) ∨
       ((callBody depth st caller callee value).2 = XRes.oog ∧
         coreCall depth st caller callee value = (st, some CallError.outOfNrg)))) := by
  simp only [coreCall, callBody]
  split
  next h1 => exact Or.inl ⟨h1, rfl⟩
  next h1 =>
    split
    next h2 => exact Or.inr (Or.inl ⟨by omega, h2, rfl⟩)
    next h2 =>
      refine Or.inr (Or.inr ⟨by omega, by omega, ?_⟩)
      split
      next ret heq => exact Or.inl ⟨ret, heq, rfl⟩
      next heq => exact Or.inr (Or.inl ⟨heq, rfl⟩)
      next heq => exact Or.inr (Or.inr ⟨heq, rfl⟩)

/-- Writing one balance changes the balance total by the difference between
the new and the old balance of that address. -/
theorem sum_updAcct_balance (a : Addr) (v : Nat) :
    ∀ l : List (Addr × Account),
      ((updAcct (fun acct => { acct with balance := v }) l a).map (fun p => p.2.balance)).sum
          + (findAcct l a).balance
        = (l.map (fun p => p.2.balance)).sum + v := by
  intro l
  induction l with
  | nil => simp [updAcct, findAcct, emptyAccount]
  | cons hd tl ih =>
    obtain ⟨b, acct⟩ := hd
    by_cases hab : a = b
    · simp [updAcct, findAcct, hab]; omega
    · simp [updAcct, findAcct, hab]; omega

/-- Balance-total accounting for `setBalance`, in additive form. -/
theorem balanceSum_setBalance (st : StateDB) (a : Addr) (v : Nat) :
    balanceSum (st.setBalance a v) + st.getBalance a = balanceSum st + v := by
  simpa [balanceSum, StateDB.setBalance, StateDB.getBalance] using
    sum_updAcct_balance a v st.accounts

/-- A transfer covered by the sender's balance conserves the balance
total. -/
theorem balanceSum_transfer (st : StateDB) (s r : Addr) (amount : Nat)
    (h : amount ≤ st.getBalance s) :
    balanceSum (transfer st s r amount) = balanceSum st := by
  simp only [transfer]
  have h1 := balanceSum_setBalance st s (st.getBalance s - amount)
  have h2 := balanceSum_setBalance (st.setBalance s (st.getBalance s - amount)) r
    ((st.setBalance s (st.getBalance s - amount)).getBalance r + amount)
  omega

/-- An account update that keeps the balance keeps the balance total. -/
theorem sum_updAcct_pres (f : Account → Account)
    (hf : ∀ acct, (f acct).balance = acct.balance) :
    ∀ (l : List (Addr × Account)) (a : Addr),
      ((updAcct f l a).map (fun p => p.2.balance)).sum
        = (l.map (fun p => p.2.balance)).sum := by
  intro l a
  induction l with
  | nil => simp [updAcct, hf, emptyAccount]
  | cons hd tl ih =>
    obtain ⟨b, acct⟩ := hd
    by_cases hab : a = b <;> simp [updAcct, hab, hf, ih]

/-- Storage writes do not change the balance total. -/
theorem balanceSum_setStorage (st : StateDB) (a : Addr) (k v : Nat) :
    balanceSum (st.setStorage a k v) = balanceSum st := by
  simpa [balanceSum, StateDB.setStorage] using
    sum_updAcct_pres (fun acct => { acct with storage := updKV acct.storage k v })
      (fun _ => rfl) st.accounts a

/-- Log appends do not change the balance total. -/
theorem balanceSum_addLog (st : StateDB) (l : Nat) :
    balanceSum (st.addLog l) = balanceSum st := rfl

/-- If every call at the current depth conserves the balance total, so does
every interpreter run at that depth. -/
theorem exec_balanceSum_of_core (depth : Nat)
    (hc : ∀ st caller callee value,
      balanceSum (coreCall depth st caller callee value).1 = balanceSum st) :
    ∀ (p : Prog) (st : StateDB) (self : Addr),
      balanceSum (exec depth st self p).1 = balanceSum st := by
  intro p
  induction p with
  | stop => intro st self; simp [exec]
  | ret d => intro st self; simp [exec]
  | revert => intro st self; simp [exec]
  | oog => intro st self; simp [exec]
  | sstore k v rest ih =>
    intro st self
    simp only [exec]
    rw [ih, balanceSum_setStorage]
  | log l rest ih =>
    intro st self
    simp only [exec]
    rw [ih, balanceSum_addLog]
  | call callee value rest ih =>
    intro st self
    simp only [exec]
    rw [ih, hc]

/-- A call at or beyond the depth bound returns its input state, so it
conserves the balance total. -/
theorem coreCall_balanceSum_big (depth : Nat) (hbig : 1024 ≤ depth)
    (st : StateDB) (caller callee : Addr) (value : Nat) :
    balanceSum (coreCall depth st caller callee value).1 = balanceSum st := by
  rcases coreCall_cases depth st caller callee value with ⟨_, heq⟩ | ⟨h1, _, _⟩ | ⟨h1, _, _⟩
  · rw [heq]
  · omega
  · omega

/-- If every interpreter run at the next depth conserves the balance total,
so does every call at the current depth. -/
theorem coreCall_balanceSum_of_exec (depth : Nat)
    (he : ∀ st self p, balanceSum (exec (depth + 1) st self p).1 = balanceSum st)
    (st : StateDB) (caller callee : Addr) (value : Nat) :
    balanceSum (coreCall depth st caller callee value).1 = balanceSum st := by
  rcases coreCall_cases depth st caller callee value with ⟨_, heq⟩ | ⟨_, _, heq⟩ | ⟨_, h2, hrest⟩
  · rw [heq]
  · rw [heq]
  · rcases hrest with ⟨ret, _, heq⟩ | ⟨_, heq⟩ | ⟨_, heq⟩
    · rw [heq]
      simp only [callBody]
      rw [he]
      exact balanceSum_transfer st caller callee value h2
    · rw [heq]
    · rw [heq]

/-- Balance-total conservation for interpreter runs, by induction on the
remaining depth budget. -/
theorem exec_balanceSum_aux :
    ∀ (n depth : Nat), 1024 ≤ depth + n →
      ∀ st self p, balanceSum (exec depth st self p).1 = balanceSum st := by
  intro n
  induction n with
  | zero =>
    intro depth hd st self p
    exact exec_balanceSum_of_core depth
      (fun st2 c t v => coreCall_balanceSum_big depth (by omega) st2 c t v) p st self
  | succ m ih =>
    intro depth hd st self p
    by_cases hbig : 1024 ≤ depth
    · exact exec_balanceSum_of_core depth
        (fun st2 c t v => coreCall_balanceSum_big depth hbig st2 c t v) p st self
    · exact exec_balanceSum_of_core depth
        (fun st2 c t v => coreCall_balanceSum_of_exec depth
          (fun st3 s3 p3 => ih (depth + 1) (by omega) st3 s3 p3) st2 c t v) p st self

/-- Every interpreter run conserves the total of all account balances. -/
theorem exec_balanceSum (depth : Nat) (st : StateDB) (self : Addr) (p : Prog) :
    balanceSum (exec depth st self p).1 = balanceSum st :=
  exec_balanceSum_aux 1024 depth (by omega) st self p

/-- Every call — successful or not, nested calls included — conserves the
total of all account balances. -/
theorem coreCall_balanceSum (depth : Nat) (st : StateDB) (caller callee : Addr)
    (value : Nat) :
    balanceSum (coreCall depth st caller callee value).1 = balanceSum st :=
  coreCall_balanceSum_of_exec depth
    (fun st2 self p => exec_balanceSum (depth + 1) st2 self p) st caller callee value

/-- Struct logs accumulate in append order under repeated `AddStructLog`. -/
theorem foldl_addStructLog (ls : List Nat) :
    ∀ env : Env, (ls.foldl Env.AddStructLog env).StructLogs = env.StructLogs ++ ls := by
  induction ls with
  | nil => intro env; simp [Env.StructLogs]
  | cons x xs ih =>
    intro env
    rw [List.foldl_cons, ih]
    simp [Env.AddStructLog, Env.StructLogs]

/-- C1: for every call that the orchestrator rolls back — any returned error,
which covers interpreter failure, explicit revert (`executionReverted`) and
nrg exhaustion (`outOfNrg`) — the database state after the rollback is
bit-identical to the state immediately before the call started (account
existence, balances, nonces, code and storage are all components of the
state value), and every log entry appended through `AddLog` during the
rolled-back call is removed, since the log sequence lives in the state
restored by `SetSnapshot`. -/
theorem call_rollback_restores_state (env : Env) (caller callee : Addr)
    (data : List Nat) (nrg price value : Nat) (e : CallError)
    (h : (env.Call caller callee data nrg price value).2 = some e) :
    (env.Call caller callee data nrg price value).1.state = env.state ∧
    (env.Call caller callee data nrg price value).1.state.logs = env.state.logs := by
  simp only [Env.Call] at h ⊢
  have hcore : (coreCall env.depth env.state caller callee value).1 = env.state := by
    rcases coreCall_cases env.depth env.state caller callee value with
      ⟨_, heq⟩ | ⟨_, _, heq⟩ | ⟨_, _, hrest⟩
    · rw [heq]
    · rw [heq]
    · rcases hrest with ⟨ret, _, heq⟩ | ⟨_, heq⟩ | ⟨_, heq⟩
      · rw [heq] at h; simp at h
      · rw [heq]
      · rw [heq]
  exact ⟨hcore, by rw [hcore]⟩

/-- Witness for C1: a call into a contract that appends a log entry and then
reverts leaves the state and the log sequence exactly as they were. -/
theorem call_rollback_restores_state_witness :
    ((NewEnv cfg0 stRev).Call 1 2 [] 9 1 5).1.state = (NewEnv cfg0 stRev).state ∧
    ((NewEnv cfg0 stRev).Call 1 2 [] 9 1 5).1.state.logs = (NewEnv cfg0 stRev).state.logs :=
  call_rollback_restores_state (NewEnv cfg0 stRev) 1 2 [] 9 1 5
    CallError.executionReverted (by
      simp [Env.Call, NewEnv, coreCall, exec, stRev, cfg0, transfer, StateDB.getBalance,
        StateDB.setBalance, StateDB.getCode, StateDB.addLog, findAcct, updAcct, emptyAccount])

/-- C2: after taking a snapshot handle with `MakeSnapshot` and performing any
finite sequence of writes (`SetBalance`, `SetNonce`, `SetCode`, `SetStorage`,
`AddLog`), restoring the handle with `SetSnapshot` makes every subsequent
read — balance, nonce, code, storage and the log sequence — return exactly
the value it had at the moment the snapshot was taken. -/
theorem snapshot_restore_reads (env : Env) (ws : List DbWrite) :
    ((applyWrites env ws).SetSnapshot env.MakeSnapshot).state = env.state ∧
    (∀ a, ((applyWrites env ws).SetSnapshot env.MakeSnapshot).state.getBalance a =
      env.state.getBalance a) ∧
    (∀ a, ((applyWrites env ws).SetSnapshot env.MakeSnapshot).state.getNonce a =
      env.state.getNonce a) ∧
    (∀ a, ((applyWrites env ws).SetSnapshot env.MakeSnapshot).state.getCode a =
      env.state.getCode a) ∧
    (∀ a k, ((applyWrites env ws).SetSnapshot env.MakeSnapshot).state.getStorage a k =
      env.state.getStorage a k) ∧
    ((applyWrites env ws).SetSnapshot env.MakeSnapshot).state.logs = env.state.logs :=
  ⟨rfl, fun _ => rfl, fun _ => rfl, fun _ => rfl, fun _ _ => rfl, rfl⟩

/-- C3: with the depth at or above 1024, `Call` fails with `depthExceeded`
regardless of the nrg budget (the budget is universally quantified and never
consulted by the depth check); with the depth strictly below 1024 it never
returns `depthExceeded` — in particular a contract calling itself
recursively is refused exactly at depth 1024, not before (a deeper nested
`depthExceeded` is reified by the orchestrator, never propagated). -/
theorem call_depth_limit (env : Env) (caller callee : Addr) (data : List Nat)
    (nrg price value : Nat) :
    (1024 ≤ env.Depth →
      (env.Call caller callee data nrg price value).2 = some CallError.depthExceeded) ∧
    (env.Depth < 1024 →
      (env.Call caller callee data nrg price value).2 ≠ some CallError.depthExceeded) := by
  simp only [Env.Call, Env.Depth]
  constructor
  · intro hd
    rcases coreCall_cases env.depth env.state caller callee value with
      ⟨_, heq⟩ | ⟨h1, _, _⟩ | ⟨h1, _, _⟩
    · rw [heq]
    · omega
    · omega
  · intro hd
    rcases coreCall_cases env.depth env.state caller callee value with
      ⟨h1, _⟩ | ⟨_, _, heq⟩ | ⟨_, _, hrest⟩
    · omega
    · rw [heq]; simp
    · rcases hrest with ⟨ret, _, heq⟩ | ⟨_, heq⟩ | ⟨_, heq⟩ <;> rw [heq] <;> simp

/-- Witness for C3: a self-calling contract is refused with `depthExceeded`
when invoked at depth 1024 and is not refused at depth 1023. -/
theorem call_depth_limit_witness :
    (((NewEnv cfg0 stRec).SetDepth 1024).Call 1 1 [] 9 1 0).2 =
      some CallError.depthExceeded ∧
    (((NewEnv cfg0 stRec).SetDepth 1023).Call 1 1 [] 9 1 0).2 ≠
      some CallError.depthExceeded :=
  ⟨(call_depth_limit ((NewEnv cfg0 stRec).SetDepth 1024) 1 1 [] 9 1 0).1 (by decide),
   (call_depth_limit ((NewEnv cfg0 stRec).SetDepth 1023) 1 1 [] 9 1 0).2 (by decide)⟩

/-- Counterexample to C4 as stated: at depth 1024 with caller balance
100 < value 150, `Call` does not return `insufficientBalance` — the depth
check of spec §4.2 step 1 takes precedence and `depthExceeded` is returned
instead. -/
theorem call_insufficient_balance_counterexample :
    stPoor.getBalance 1 < 150 ∧
    (((NewEnv cfg0 stPoor).SetDepth 1024).Call 1 2 [] 9 1 150).2 ≠
      some CallError.insufficientBalance ∧
    (((NewEnv cfg0 stPoor).SetDepth 1024).Call 1 2 [] 9 1 150).2 =
      some CallError.depthExceeded := by
  refine ⟨by decide, ?_, ?_⟩ <;>
    simp [Env.Call, Env.SetDepth, NewEnv, coreCall]

/-- C4 (amended): for every invocation of `Call` whose depth is below the
1024 bound and whose caller balance is strictly below the transfer value,
`Call` returns `insufficientBalance` and no state change is observable — the
whole database state, hence every account's balance, is exactly what it was;
and `CanTransfer` returns true exactly when the balance covers the
amount. -/
theorem call_insufficient_balance (env : Env) (caller callee sender : Addr)
    (data : List Nat) (nrg price value amount : Nat) (hd : env.Depth < 1024)
    (hb : env.state.getBalance caller < value) :
    (env.Call caller callee data nrg price value).2 = some CallError.insufficientBalance ∧
    (env.Call caller callee data nrg price value).1.state = env.state ∧
    (env.CanTransfer sender amount = true ↔ amount ≤ env.state.getBalance sender) := by
  simp only [Env.Call, Env.Depth] at hd ⊢
  rcases coreCall_cases env.depth env.state caller callee value with
    ⟨h1, _⟩ | ⟨_, _, heq⟩ | ⟨_, h2, _⟩
  · omega
  · rw [heq]
    exact ⟨rfl, rfl, by simp [Env.CanTransfer]⟩
  · omega

/-- Witness for C4: the spec scenario — caller balance 100, value 150 — at
depth 0 fails with `insufficientBalance` and leaves the state untouched. -/
theorem call_insufficient_balance_witness :
    ((NewEnv cfg0 stPoor).Call 1 2 [] 9 1 150).2 = some CallError.insufficientBalance ∧
    ((NewEnv cfg0 stPoor).Call 1 2 [] 9 1 150).1.state = (NewEnv cfg0 stPoor).state ∧
    ((NewEnv cfg0 stPoor).CanTransfer 1 100 = true ↔
      100 ≤ (NewEnv cfg0 stPoor).state.getBalance 1) :=
  call_insufficient_balance (NewEnv cfg0 stPoor) 1 2 1 [] 9 1 150 100 (by decide) (by decide)

/-- C5: for every successful invocation of `Call` — nested calls included,
since the proof proceeds through the whole mutual recursion of orchestrator
and interpreter — the sum of balances over all accounts after the call
equals the sum before it: the value debited from the caller is exactly the
value credited to the callee. -/
theorem call_balance_conservation (env : Env) (caller callee : Addr) (data : List Nat)
    (nrg price value : Nat)
    (h : (env.Call caller callee data nrg price value).2 = none) :
    balanceSum (env.Call caller callee data nrg price value).1.state =
      balanceSum env.state := by
  simp only [Env.Call]
  exact coreCall_balanceSum env.depth env.state caller callee value

/-- Witness for C5: a successful value transfer of 5 from account 1 to
account 2 conserves the balance total. -/
theorem call_balance_conservation_witness :
    balanceSum ((NewEnv cfg0 stA).Call 1 2 [] 9 1 5).1.state =
      balanceSum (NewEnv cfg0 stA).state :=
  call_balance_conservation (NewEnv cfg0 stA) 1 2 [] 9 1 5 (by
    simp [Env.Call, NewEnv, coreCall, exec, stA, cfg0, transfer, StateDB.getBalance,
      StateDB.setBalance, StateDB.getCode, findAcct, updAcct, emptyAccount])

/-- C6: when the environment's hash function is the chain collaborator's
(which serves recorded ancestor heights), `GetHash` on a height that is not
ancestor-reachable returns the zero sentinel hash — an ordinary return
value, not a failure escaping the function. -/
theorem gethash_unreachable_zero (env : Env) (ancestors : List (Nat × Hash)) (n : Nat)
    (hfn : env.getHashFn = some (chainHashFn ancestors))
    (hnr : ancestors.lookup n = none) :
    env.GetHash n = some 0 := by
  simp [Env.GetHash, hfn, chainHashFn, hnr]

/-- Witness for C6: with only height 5 reachable, `GetHash 3` returns the
zero hash. -/
theorem gethash_unreachable_zero_witness :
    Env.GetHash { NewEnv cfg0 stA with getHashFn := some (chainHashFn anc0) } 3 = some 0 :=
  gethash_unreachable_zero { NewEnv cfg0 stA with getHashFn := some (chainHashFn anc0) }
    anc0 3 rfl (by decide)

/-- C7: for every configuration and state, the environment built by `NewEnv`
answers each block-context accessor with the corresponding configuration
field and starts at depth 0.  The accessors are pure by construction: in
this embedding they are plain functions of the environment value, so they
mutate nothing and repeated calls return the same values. -/
theorem newenv_accessors (cfg : Config) (st : StateDB) :
    (NewEnv cfg st).Origin = cfg.origin ∧
    (NewEnv cfg st).Coinbase = cfg.coinbase ∧
    (NewEnv cfg st).BlockNumber = cfg.blockNumber ∧
    (NewEnv cfg st).Time = cfg.time ∧
    (NewEnv cfg st).Difficulty = cfg.difficulty ∧
    (NewEnv cfg st).NrgLimit = cfg.nrgLimit ∧
    (NewEnv cfg st).Depth = 0 ∧
    (NewEnv cfg st).state = st :=
  ⟨rfl, rfl, rfl, rfl, rfl, rfl, rfl, rfl⟩

/-- C8: every exposed operation is deterministic — two executions started
from identical environments (hence identical database states) with identical
arguments produce identical results, and each result value carries the
output, the error and the final environment state, so all three coincide
bit-identically.  The embedding makes this hold by construction: every
operation is a pure function with no source of nondeterminism. -/
theorem operations_deterministic (e1 e2 : Env) (caller callee : Addr) (data : List Nat)
    (nrg price value : Nat) (init : Prog) (snap : StateDB) (h : e1 = e2) :
    e1.Call caller callee data nrg price value =
      e2.Call caller callee data nrg price value ∧
    e1.CallCode caller callee data nrg price value =
      e2.CallCode caller callee data nrg price value ∧
    e1.DelegateCall caller callee data nrg price =
      e2.DelegateCall caller callee data nrg price ∧
    e1.Create caller init nrg price value = e2.Create caller init nrg price value ∧
    e1.Origin = e2.Origin ∧ e1.Coinbase = e2.Coinbase ∧
    e1.BlockNumber = e2.BlockNumber ∧ e1.Time = e2.Time ∧
    e1.Difficulty = e2.Difficulty ∧ e1.NrgLimit = e2.NrgLimit ∧
    e1.Depth = e2.Depth ∧ e1.MakeSnapshot = e2.MakeSnapshot ∧
    e1.SetSnapshot snap = e2.SetSnapshot snap := by
  subst h
  exact ⟨rfl, rfl, rfl, rfl, rfl, rfl, rfl, rfl, rfl, rfl, rfl, rfl, rfl⟩

/-- Witness for C8: the determinism theorem instantiated at a concrete
environment and concrete arguments. -/
theorem operations_deterministic_witness :
    (NewEnv cfg0 stA).Call 1 2 [] 9 1 5 = (NewEnv cfg0 stA).Call 1 2 [] 9 1 5 ∧
    (NewEnv cfg0 stA).CallCode 1 2 [] 9 1 5 = (NewEnv cfg0 stA).CallCode 1 2 [] 9 1 5 ∧
    (NewEnv cfg0 stA).DelegateCall 1 2 [] 9 1 =
      (NewEnv cfg0 stA).DelegateCall 1 2 [] 9 1 ∧
    (NewEnv cfg0 stA).Create 1 Prog.stop 9 1 5 =
      (NewEnv cfg0 stA).Create 1 Prog.stop 9 1 5 ∧
    (NewEnv cfg0 stA).Origin = (NewEnv cfg0 stA).Origin ∧
    (NewEnv cfg0 stA).Coinbase = (NewEnv cfg0 stA).Coinbase ∧
    (NewEnv cfg0 stA).BlockNumber = (NewEnv cfg0 stA).BlockNumber ∧
    (NewEnv cfg0 stA).Time = (NewEnv cfg0 stA).Time ∧
    (NewEnv cfg0 stA).Difficulty = (NewEnv cfg0 stA).Difficulty ∧
    (NewEnv cfg0 stA).NrgLimit = (NewEnv cfg0 stA).NrgLimit ∧
    (NewEnv cfg0 stA).Depth = (NewEnv cfg0 stA).Depth ∧
    (NewEnv cfg0 stA).MakeSnapshot = (NewEnv cfg0 stA).MakeSnapshot ∧
    (NewEnv cfg0 stA).SetSnapshot stA = (NewEnv cfg0 stA).SetSnapshot stA :=
  operations_deterministic (NewEnv cfg0 stA) (NewEnv cfg0 stA) 1 2 [] 9 1 5
    Prog.stop stA rfl

/-- C9: `NewEnv` never sets the `getHashFn` field, so on every freshly
constructed environment it holds Go's nil function value and `GetHash`
invokes it — a runtime panic, embedded as `none` — for every height; the
documented zero-sentinel behaviour is unreachable unless `getHashFn` is
assigned outside `NewEnv`. -/
theorem newenv_gethash_nil (cfg : Config) (st : StateDB) (n : Nat) :
    (NewEnv cfg st).getHashFn = none ∧ (NewEnv cfg st).GetHash n = none :=
  ⟨rfl, rfl⟩

/-- C10: `AddStructLog` appends to the environment's own `logs` slice and
`StructLogs` returns exactly the appended entries in append order;
`SetSnapshot` replaces only the `state` field and leaves every other field —
the struct-log slice included — untouched, so struct logs appended before a
snapshot restore survive the restore: they are outside the snapshot/rollback
boundary. -/
theorem structlogs_outside_snapshot (env : Env) (l : Nat) (ls : List Nat)
    (snap : StateDB) :
    (env.AddStructLog l).StructLogs = env.StructLogs ++ [l] ∧
    (ls.foldl Env.AddStructLog env).StructLogs = env.StructLogs ++ ls ∧
    (env.SetSnapshot snap).state = snap ∧
    (env.SetSnapshot snap).logs = env.logs ∧
    (env.SetSnapshot snap).depth = env.depth ∧
    (env.SetSnapshot snap).origin = env.origin ∧
    (env.SetSnapshot snap).shiftbase = env.shiftbase ∧
    (env.SetSnapshot snap).number = env.number ∧
    (env.SetSnapshot snap).time = env.time ∧
    (env.SetSnapshot snap).difficulty = env.difficulty ∧
    (env.SetSnapshot snap).nrgLimit = env.nrgLimit ∧
    (env.SetSnapshot snap).getHashFn = env.getHashFn ∧
    ((env.AddStructLog l).SetSnapshot snap).StructLogs = env.StructLogs ++ [l] :=
  ⟨rfl, foldl_addStructLog ls env, rfl, rfl, rfl, rfl, rfl, rfl, rfl, rfl, rfl, rfl, rfl⟩
